import Mathlib

/-!
Verification of the a11y-garden scan engine.

Shallow embedding of the algorithmic core of the repository:
* `convex/lib/grading.ts` — `calculateGrade` (weighted penalty + hard caps);
* `src/lib/scanner.ts` — `truncateViolations` (size-capped serialization),
  the severity-counting loop, the WAF/block detector and the full → safe →
  minimal → empty-with-warning escalation ladder inside `scanUrl`;
* `src/lib/rate-limit.ts` — the global concurrency-slot counter;
* `src/lib/url-validator.ts` — the private/reserved address classifiers.

JavaScript numbers are modelled as `Nat`/`Int` (every quantity involved is an
integer in the source), strings as Lean `String`/`List Char`, thrown
exceptions as `Except`, and the shared Redis counter as explicit state
passing.  `JSON.stringify` is modelled by a concrete serializer for the
record shapes the scanner produces, with the same character-level escaping.
-/

namespace Grading

/-- `ViolationCounts` from `convex/lib/grading.ts` (counts per severity). -/
structure ViolationCounts where
  critical : Nat
  serious : Nat
  moderate : Nat
  minor : Nat
deriving Repr, DecidableEq

/-- Letter grades `"A" | "B" | "C" | "D" | "F"`. -/
inductive Letter where
  | A | B | C | D | F
deriving Repr, DecidableEq

/-- `GradeResult` from `convex/lib/grading.ts`. -/
structure GradeResult where
  score : Int
  grade : Letter
deriving Repr, DecidableEq

/-- Embedding of `calculateGrade` (grading.ts lines 31–73).  The penalty is an
integer, so `Math.round` is the identity; `Math.max(0, ·)` and `Math.min` map
to `max`/`min` over `Int`. -/
def calculateGrade (v : ViolationCounts) : GradeResult :=
  let penalty : Int :=
    (v.critical : Int) * 25 + (v.serious : Int) * 12 +
    (v.moderate : Int) * 5 + (v.minor : Int) * 1
  let score0 : Int := max 0 (100 - penalty)
  let score : Int :=
    if v.critical > 0 then min score0 55
    else if v.serious > 0 then min score0 72
    else if v.moderate ≥ 3 then min score0 85
    else score0
  let grade : Letter :=
    if score ≥ 90 then .A
    else if score ≥ 80 then .B
    else if score ≥ 70 then .C
    else if score ≥ 60 then .D
    else .F
  ⟨score, grade⟩

/-- Score formula as the specification words it: weighted penalty floored at
zero, then the minimum with the applicable hard cap (55 for any critical,
else 72 for any serious, else 85 for three-or-more moderate, else no cap). -/
def specScore (v : ViolationCounts) : Int :=
  let base : Int :=
    max 0 (100 - ((v.critical : Int) * 25 + (v.serious : Int) * 12 +
      (v.moderate : Int) * 5 + (v.minor : Int) * 1))
  let cap : Option Int :=
    if v.critical > 0 then some 55
    else if v.serious > 0 then some 72
    else if v.moderate ≥ 3 then some 85
    else none
  match cap with
  | some c => min base c
  | none => base

/-- Letter boundaries as the specification words them:
≥90 A, ≥80 B, ≥70 C, ≥60 D, else F. -/
def specLetter (s : Int) : Letter :=
  if s ≥ 90 then .A
  else if s ≥ 80 then .B
  else if s ≥ 70 then .C
  else if s ≥ 60 then .D
  else .F

end Grading

namespace Scanner

/-- `AxeNodeRaw` (scanner.ts lines 70–75).  All fields of the TS interface are
optional; the model keeps the `html` payload, which is where the bulk of the
serialized size lives.  Nothing in `truncateViolations` reads node fields. -/
structure AxeNodeRaw where
  html : String
deriving Repr, DecidableEq

/-- `AxeViolationRaw` (scanner.ts lines 77–86): rule id, optional impact and
the node (occurrence) list. -/
structure AxeViolationRaw where
  id : String
  impact : Option String
  nodes : List AxeNodeRaw
deriving Repr, DecidableEq

/-- `MAX_RAW_VIOLATIONS_CHARS` (scanner.ts line 68): `512_000`. -/
def MAX_RAW_VIOLATIONS_CHARS : Nat := 512000

/-- Lower-case hex digit, used for JSON `\u00XX` control-character escapes. -/
def hexDigit (n : Nat) : Char :=
  if n < 10 then Char.ofNat (48 + n) else Char.ofNat (87 + n)

/-- Character-level escaping of `JSON.stringify`: `"` and `\` get a
backslash, the five named control characters get two-character escapes, all
other control characters below U+0020 get `\u00XX`, everything else is
emitted verbatim. -/
def escChar (c : Char) : List Char :=
  if c = '"' then ['\\', '"']
  else if c = '\\' then ['\\', '\\']
  else if c = '\n' then ['\\', 'n']
  else if c = '\t' then ['\\', 't']
  else if c = '\r' then ['\\', 'r']
  else if c.toNat = 8 then ['\\', 'b']
  else if c.toNat = 12 then ['\\', 'f']
  else if c.toNat < 32 then
    ['\\', 'u', '0', '0', hexDigit (c.toNat / 16), hexDigit (c.toNat % 16)]
  else [c]

/-- Escape every character of a string. -/
def escList : List Char → List Char
  | [] => []
  | c :: cs => escChar c ++ escList cs

/-- A JSON string literal: escaped content between double quotes. -/
def quote (s : String) : String :=
  "\"" ++ String.mk (escList s.data) ++ "\""

/-- Comma-separated join, as `JSON.stringify` renders array elements. -/
def commaJoinS : List String → String
  | [] => ""
  | [s] => s
  | s :: rest => s ++ "," ++ commaJoinS rest

/-- `JSON.stringify` of one node object (the `html` field). -/
def serializeNode (n : AxeNodeRaw) : String :=
  "\x7b\"html\":" ++ quote n.html ++ "\x7d"

/-- `JSON.stringify` of a node array. -/
def serializeNodes (ns : List AxeNodeRaw) : String :=
  commaJoinS (ns.map serializeNode)

/-- `JSON.stringify` of one violation object; an absent `impact` field is
omitted, as `JSON.stringify` omits `undefined` properties. -/
def serializeViolation (v : AxeViolationRaw) : String :=
  "\x7b\"id\":" ++ quote v.id ++
    (match v.impact with
     | some s => ",\"impact\":" ++ quote s
     | none => "") ++
    ",\"nodes\":[" ++ serializeNodes v.nodes ++ "]\x7d"

/-- `JSON.stringify(violations)` for the whole violations array. -/
def serializeViolations (vs : List AxeViolationRaw) : String :=
  "[" ++ commaJoinS (vs.map serializeViolation) ++ "]"

/-- The body of the `for (let i = 0; ...)` scan in `truncateViolations`
(scanner.ts lines 113–121): track the first index whose node count strictly
exceeds the running maximum, which starts at 1 (`maxIdx = -1; maxNodes = 1`).
`none` models `maxIdx === -1`. -/
def findMaxIdxAux : List AxeViolationRaw → Nat → Option Nat → Nat → Option Nat
  | [], _, best, _ => best
  | v :: rest, i, best, maxNodes =>
    if v.nodes.length > maxNodes then findMaxIdxAux rest (i + 1) (some i) v.nodes.length
    else findMaxIdxAux rest (i + 1) best maxNodes

/-- Index of the violation with the largest node array (> 1), if any. -/
def findMaxIdx (vs : List AxeViolationRaw) : Option Nat :=
  findMaxIdxAux vs 0 none 1

/-- One halving step (scanner.ts lines 126–130):
`keepCount = Math.max(1, Math.floor(nodes.length / 2))`, then
`nodes = nodes.slice(0, keepCount)`. -/
def halveNodes (v : AxeViolationRaw) : AxeViolationRaw :=
  { v with nodes := v.nodes.take (max 1 (v.nodes.length / 2)) }

/-- Apply `halveNodes` at index `i` (the in-place
`trimmed[maxIdx].nodes = ...` of the source, on the deep copy). -/
def halveAt : List AxeViolationRaw → Nat → List AxeViolationRaw
  | [], _ => []
  | v :: rest, 0 => halveNodes v :: rest
  | v :: rest, i + 1 => v :: halveAt rest i

/-- The `for (let pass = 0; pass < 50; pass++)` loop of `truncateViolations`:
re-serialize, stop once within the cap, otherwise halve the largest node
array; stop when every violation already has ≤ 1 node (`maxIdx === -1`). -/
def trimLoop : Nat → List AxeViolationRaw → List AxeViolationRaw
  | 0, vs => vs
  | fuel + 1, vs =>
    if (serializeViolations vs).length ≤ MAX_RAW_VIOLATIONS_CHARS then vs
    else
      match findMaxIdx vs with
      | none => vs
      | some i => trimLoop fuel (halveAt vs i)

/-- The violation list whose serialization `truncateViolations` returns.  The
source's deep copy `JSON.parse(JSON.stringify(violations))` is the identity
on this data, so the copy is the input value itself. -/
def truncationList (vs : List AxeViolationRaw) : List AxeViolationRaw :=
  if (serializeViolations vs).length ≤ MAX_RAW_VIOLATIONS_CHARS then vs
  else trimLoop 50 vs

/-- Embedding of `truncateViolations` (scanner.ts lines 96–135).  When the
input already fits it is returned unchanged with `truncated = false`;
otherwise the trimmed copy is re-serialized and flagged `truncated = true`. -/
def truncateViolations (vs : List AxeViolationRaw) : String × Bool :=
  let serialized := serializeViolations vs
  if serialized.length ≤ MAX_RAW_VIOLATIONS_CHARS then (serialized, false)
  else (serializeViolations (trimLoop 50 vs), true)

/-- `w` is a trimmed form of `v`: identity fields untouched and the node list
replaced by a non-trivial initial prefix (`take k` with `k ≥ 1`). -/
def NodesTrim (v w : AxeViolationRaw) : Prop :=
  w.id = v.id ∧ w.impact = v.impact ∧ ∃ k, 1 ≤ k ∧ w.nodes = v.nodes.take k

/-- Pointwise trimming of a violation list. -/
def Trim (vs ws : List AxeViolationRaw) : Prop :=
  List.Forall₂ NodesTrim vs ws

/-- A 600 000-character node payload, used to exhibit inputs whose
serialization cannot be brought under the cap. -/
def bigHtml : String := ⟨List.replicate 600000 'a'⟩

/-- A single violation with a single enormous occurrence: no halving is
possible (`nodes.length = 1`) yet the serialization exceeds the cap. -/
def bigViolation : AxeViolationRaw := ⟨"r", none, [⟨bigHtml⟩]⟩

/-- `ViolationCounts` from scanner.ts lines 235–241 (with `total`). -/
structure ViolationCounts where
  critical : Nat
  serious : Nat
  moderate : Nat
  minor : Nat
  total : Nat
deriving Repr, DecidableEq

/-- The body of `results.violations.forEach` (scanner.ts lines 766–771 and
route.ts lines 495–500): `critical`/`serious`/`moderate` by strict equality
on `impact`, everything else — including a missing impact — lands in
`minor`. -/
def tally (c : ViolationCounts) (v : AxeViolationRaw) : ViolationCounts :=
  if v.impact = some "critical" then { c with critical := c.critical + 1 }
  else if v.impact = some "serious" then { c with serious := c.serious + 1 }
  else if v.impact = some "moderate" then { c with moderate := c.moderate + 1 }
  else { c with minor := c.minor + 1 }

/-- Severity counting in `scanUrl` (scanner.ts lines 759–773): `total` is set
to `results.violations.length` up front, then the `forEach` increments one
bucket per violation. -/
def countViolations (vs : List AxeViolationRaw) : ViolationCounts :=
  vs.foldl tally ⟨0, 0, 0, 0, vs.length⟩

/-- `violation.impact === "critical"`. -/
def isCrit (v : AxeViolationRaw) : Bool := v.impact == some "critical"

/-- `violation.impact === "serious"`. -/
def isSer (v : AxeViolationRaw) : Bool := v.impact == some "serious"

/-- `violation.impact === "moderate"`. -/
def isMod (v : AxeViolationRaw) : Bool := v.impact == some "moderate"

/-- The catch-all `else` of the severity chain: impact missing or not one of
the three recognized values. -/
def isOther (v : AxeViolationRaw) : Bool := !(isCrit v || isSer v || isMod v)

/-- Does `pat` occur at the start of `hay`? (list-level `startsWith`). -/
def isPre : List Char → List Char → Bool
  | [], _ => true
  | _ :: _, [] => false
  | p :: ps, h :: hs => p == h && isPre ps hs

/-- Does `pat` occur anywhere in `hay`? (substring containment). -/
def hasSub (pat : List Char) : List Char → Bool
  | [] => isPre pat []
  | h :: rest => isPre pat (h :: rest) || hasSub pat rest

/-- The alternatives of `blockedTitlePatterns` (scanner.ts line 601); the
regex is a case-insensitive alternation of these literal phrases. -/
def blockedTitlePatterns : List String :=
  ["access denied", "attention required", "just a moment",
   "checking your browser", "robot check", "blocked",
   "pardon our interruption", "please verify", "security check",
   "one more step"]

/-- The alternatives of `blockedBodyPatterns` (scanner.ts line 603). -/
def blockedBodyPatterns : List String :=
  ["captcha", "cf-browser-verification", "challenge-platform", "akamai",
   "perimeterx", "datadome", "cloudflare",
   "enable javascript and cookies", "unusual traffic"]

/-- `/…/i.test(s)`: case-insensitive match of an alternation of literals =
some alternative occurs in the lower-cased text. -/
def testPatterns (pats : List String) (s : String) : Bool :=
  pats.any fun p => hasSub p.data (s.data.map Char.toLower)

/-- The `looksBlocked` expression (scanner.ts lines 605–609): HTTP 403/503,
a block-phrase in the title, or a vendor fingerprint in a short body. -/
def looksBlocked (httpStatus : Nat) (pageTitle bodyText : String) : Bool :=
  (httpStatus == 403) || (httpStatus == 503) ||
    testPatterns blockedTitlePatterns pageTitle ||
    (testPatterns blockedBodyPatterns bodyText && bodyText.length < 5000)

/-- What the navigation phase observed about the page: HTTP status
(`response?.status() ?? 200`), title, and `document.body.innerText`. -/
structure PageObservation where
  httpStatus : Nat
  pageTitle : String
  fullInnerText : String
deriving Repr, DecidableEq

/-- The body-text sample `document.body?.innerText?.substring(0, 2000)`
(scanner.ts lines 597–599). -/
def bodySample (o : PageObservation) : String :=
  ⟨o.fullInnerText.data.take 2000⟩

/-- What the in-page safe-mode `evaluate` block can observe: whether the safe
rule run throws in the page, whether a main-content container
(`main`/`article`/`#content`/`#main`) exists, and what the minimal run does. -/
structure SafeStage where
  safeRun : Except String (List AxeViolationRaw)
  mainEl : Bool
  minimalRun : Except String (List AxeViolationRaw)
deriving Repr

/-- The rule-engine behaviour of the page, as `scanUrl` can observe it.
`fullRun`: the full-rules `evaluate` — an in-page throw or a protocol-level
rejection both surface through `.catch` as `{ error: message }`.
`safeEval`: `.error` is a protocol-level rejection of the whole safe-mode
`evaluate` (its `.catch` produces `{ error, violations: [] }`); `.ok` is the
in-page behaviour, whose own try/catch drives the safe → minimal → empty
ladder. -/
structure PageBehavior where
  fullRun : Except String (List AxeViolationRaw)
  safeEval : Except String SafeStage
deriving Repr

/-- The warning attached to the empty fallback result
(`_warning: "Site too complex for automated scanning"`). -/
def tooComplexWarning : String := "Site too complex for automated scanning"

/-- A page on which the full run and the in-page safe run both throw, no
main-content container exists, and the minimal rule set would succeed if it
were ever run. -/
def noMainElPage : PageBehavior :=
  ⟨.error "boom", .ok ⟨.error "crash", false, .ok []⟩⟩

/-- Shape of the `results` value that the evaluates produce: an optional
`error` field, an optional `violations` field (absent on the full-scan error
shape `{ error }`), and an optional `_warning` field. -/
structure RunResults where
  error : Option String
  violations : Option (List AxeViolationRaw)
  warningField : Option String
deriving Repr, DecidableEq

/-- `"error" in r && r.error`: the error field exists and is truthy
(a non-empty string). -/
def errTruthy (r : RunResults) : Bool :=
  match r.error with
  | some m => !(m == "")
  | none => false

/-- `fullScanResult` (scanner.ts lines 667–679): the result of the full-rules
evaluate, or `{ error: message }` from its `.catch`. -/
def fullScanResult (p : PageBehavior) : RunResults :=
  match p.fullRun with
  | .ok vs => ⟨none, some vs, none⟩
  | .error m => ⟨some m, none, none⟩

/-- The safe-mode `results` (scanner.ts lines 687–751): in-page try safe
rules; on an in-page throw, try the minimal scan on the first main-content
container if one exists; otherwise (or if that throws too) return the empty
result with `_warning`.  A protocol-level rejection of the evaluate is turned
into `{ error, violations: [] }` by its `.catch`. -/
def safeScanResult (p : PageBehavior) : RunResults :=
  match p.safeEval with
  | .error m => ⟨some m, some [], none⟩
  | .ok st =>
    match st.safeRun with
    | .ok vs => ⟨none, some vs, none⟩
    | .error _ =>
      if st.mainEl then
        match st.minimalRun with
        | .ok vs => ⟨none, some vs, none⟩
        | .error _ => ⟨none, some [], some tooComplexWarning⟩
      else ⟨none, some [], some tooComplexWarning⟩

/-- Outcome of the escalation ladder: the final violations list, the
`usedSafeMode` flag and the `_warning` field, or a thrown error. -/
structure EscalationOutcome where
  violations : List AxeViolationRaw
  safeMode : Bool
  warning : Option String
deriving Repr, DecidableEq

/-- The escalation logic of `scanUrl` (scanner.ts lines 661–758): take the
full result unless its error field is truthy, in which case run the safe-mode
ladder; then `throw new Error("Accessibility scan failed: …")` if the chosen
result still carries a truthy error.  Reading `results.violations` off the
error shape `{ error: "" }` would be a `TypeError` in JS; that dead corner is
modelled as a distinct error string. -/
def runEscalation (p : PageBehavior) : Except String EscalationOutcome :=
  let full := fullScanResult p
  let usedSafeMode := errTruthy full
  let results := if errTruthy full then safeScanResult p else full
  if errTruthy results then
    .error ("Accessibility scan failed: " ++
      (match results.error with | some m => m | none => ""))
  else
    match results.violations with
    | some vs => .ok ⟨vs, usedSafeMode, results.warningField⟩
    | none => .error "TypeError: results.violations is undefined"

/-- The three rule-engine stages. -/
inductive Stage where
  | full | safe | minimal
deriving Repr, DecidableEq

/-- Which stages actually run a rule evaluation, in order: `full` always;
`safe` when the full result's error is truthy; `minimal` when additionally
the in-page safe run threw and a main-content container exists. -/
def stagesRun (p : PageBehavior) : List Stage :=
  if errTruthy (fullScanResult p) then
    match p.safeEval with
    | .error _ => [.full, .safe]
    | .ok st =>
      match st.safeRun with
      | .ok _ => [.full, .safe]
      | .error _ => if st.mainEl then [.full, .safe, .minimal] else [.full, .safe]
  else [.full]

/-- Error taxonomy of a scan attempt: `ScanBlockedError` (with page title and
HTTP status, scanner.ts lines 218–231) versus any other thrown error. -/
inductive ScanError where
  | blocked (message : String) (pageTitle : String) (httpStatus : Nat)
  | scanFailed (message : String)
deriving Repr, DecidableEq

/-- The message passed to `ScanBlockedError` (scanner.ts line 612). -/
def blockedMessage : String :=
  "This site's firewall blocked our scanner. The results would not reflect the real page."

/-- Final (non-thrown) scan result fields relevant to the claims
(scanner.ts lines 788–799). -/
structure ScanResultM where
  violations : ViolationCounts
  rawViolations : String
  pageTitle : String
  safeMode : Bool
  truncated : Bool
  warning : Option String
deriving Repr, DecidableEq

/-- `scanUrl` from the block check onward (scanner.ts lines 595–799): sample
the body, throw `ScanBlockedError` when `looksBlocked`, otherwise run the
escalation ladder and reduce its outcome (severity counts, truncation).
Screenshot, platform detection and the Docker-rewrite warning suffix are
omitted: no claim mentions them and they do not feed these fields. -/
def scanAfterNav (o : PageObservation) (p : PageBehavior) :
    Except ScanError ScanResultM :=
  let bodyText := bodySample o
  if looksBlocked o.httpStatus o.pageTitle bodyText then
    .error (.blocked blockedMessage o.pageTitle o.httpStatus)
  else
    match runEscalation p with
    | .error m => .error (.scanFailed m)
    | .ok out =>
      .ok ⟨countViolations out.violations,
           (truncateViolations out.violations).1,
           o.pageTitle,
           out.safeMode,
           (truncateViolations out.violations).2,
           out.warning⟩

end Scanner

namespace RateLimit

/-- `MAX_CONCURRENT_SCANS` (rate-limit.ts line 35). -/
def MAX_CONCURRENT_SCANS : Nat := 10

/-- `acquireConcurrencySlot` (rate-limit.ts lines 73–89) acting on the shared
`scan:active-count` counter (Redis `INCR`/`DECR` operate on a signed
integer): increment; if the post-increment value exceeds the cap, decrement
back and report failure. -/
def acquireConcurrencySlot (count : Int) : Bool × Int :=
  let c := count + 1
  if c > (MAX_CONCURRENT_SCANS : Int) then (false, c - 1) else (true, c)

/-- `releaseConcurrencySlot` (rate-limit.ts lines 91–100): decrement, and if
the counter went negative, reset it to zero (`redis.set(KEY, 0)`). -/
def releaseConcurrencySlot (count : Int) : Int :=
  let c := count - 1
  if c < 0 then 0 else c

/-- `n` successive acquire calls: the list of returned Booleans and the final
counter value. -/
def acquireN : Nat → Int → List Bool × Int
  | 0, c => ([], c)
  | n + 1, c =>
    let r := acquireConcurrencySlot c
    let rest := acquireN n r.2
    (r.1 :: rest.1, rest.2)

/-- `n` successive release calls. -/
def releaseN : Nat → Int → Int
  | 0, c => c
  | n + 1, c => releaseN n (releaseConcurrencySlot c)

end RateLimit

namespace UrlValidator

/-- Split a character list on `'.'` (the `ip.split(".")` of the source). -/
def splitOnDot : List Char → List (List Char)
  | [] => [[]]
  | c :: rest =>
    let r := splitOnDot rest
    if c = '.' then [] :: r
    else
      match r with
      | [] => [[c]]
      | g :: gs => (c :: g) :: gs

/-- Is this a non-empty run of ASCII digits (`\d+`)? -/
def allDigits (l : List Char) : Bool :=
  !l.isEmpty && l.all Char.isDigit

/-- `Number(...)` on the strings this validator feeds it: the value of a
digit run; anything else (including a missing part) is `NaN`, which the
subsequent 32-bit coercion turns into 0. -/
def numOfChars (cs : List Char) : Nat :=
  if allDigits cs then cs.foldl (fun acc c => acc * 10 + (c.toNat - 48)) 0
  else 0

/-- The `i`-th dotted part of an address, 0 for a missing part
(`parts[i]` being `undefined` also coerces to 0). -/
def partVal (parts : List (List Char)) (i : Nat) : Nat :=
  numOfChars (parts.getD i [])

/-- `ipv4ToInt` (url-validator.ts lines 45–48):
`((p0 << 24) | (p1 << 16) | (p2 << 8) | p3) >>> 0` — 32-bit shifts and ORs,
read back as an unsigned 32-bit value. -/
def ipv4ToInt (ip : List Char) : Nat :=
  let parts := splitOnDot ip
  let p0 := partVal parts 0 % 2 ^ 32
  let p1 := partVal parts 1 % 2 ^ 32
  let p2 := partVal parts 2 % 2 ^ 32
  let p3 := partVal parts 3 % 2 ^ 32
  (p0 * 2 ^ 24 % 2 ^ 32).lor ((p1 * 2 ^ 16 % 2 ^ 32).lor ((p2 * 2 ^ 8 % 2 ^ 32).lor p3))

/-- `PRIVATE_IPV4_RANGES` (url-validator.ts lines 17–33). -/
def PRIVATE_IPV4_RANGES : List (String × Nat) :=
  [("0.0.0.0", 8), ("10.0.0.0", 8), ("100.64.0.0", 10), ("127.0.0.0", 8),
   ("169.254.0.0", 16), ("172.16.0.0", 12), ("192.0.0.0", 24),
   ("192.0.2.0", 24), ("192.88.99.0", 24), ("192.168.0.0", 16),
   ("198.18.0.0", 15), ("198.51.100.0", 24), ("203.0.113.0", 24),
   ("224.0.0.0", 4), ("240.0.0.0", 4)]

/-- `mask = maskBits === 0 ? 0 : (~0 << (32 - maskBits)) >>> 0`. -/
def maskOf (bits : Nat) : Nat :=
  if bits = 0 then 0 else 2 ^ 32 - 2 ^ (32 - bits)

/-- `isPrivateIPv4` (url-validator.ts lines 50–61): the address ANDed with
each range's mask equals the range prefix ANDed with the same mask. -/
def isPrivateIPv4 (ip : String) : Bool :=
  let ipInt := ipv4ToInt ip.data
  PRIVATE_IPV4_RANGES.any fun pr =>
    (ipInt.land (maskOf pr.2)) == ((ipv4ToInt pr.1.data).land (maskOf pr.2))

/-- `PRIVATE_IPV6_PREFIXES` (url-validator.ts lines 36–43). -/
def PRIVATE_IPV6_PREFIXES : List String :=
  ["::1", "fc", "fd", "fe80", "ff", "::"]

/-- Does `l` match `^::ffff:(\d+\.\d+\.\d+\.\d+)$`?  Returns the captured
dotted quad. -/
def matchMappedV4 (l : List Char) : Option (List Char) :=
  if Scanner.isPre [':', ':', 'f', 'f', 'f', 'f', ':'] l then
    let rest := l.drop 7
    match splitOnDot rest with
    | [a, b, c, d] =>
      if allDigits a && allDigits b && allDigits c && allDigits d then some rest
      else none
    | _ => none
  else none

/-- `isPrivateIPv6` (url-validator.ts lines 62–74): exact match for the
unspecified address, then the prefix list (which includes `"::"`), and only
then the IPv4-mapped unwrap-and-recheck. -/
def isPrivateIPv6 (ip : String) : Bool :=
  let normalized : List Char := ip.data.map Char.toLower
  if normalized = [':', ':'] || normalized = [':', ':', '0'] then true
  else if PRIVATE_IPV6_PREFIXES.any fun p => Scanner.isPre p.data normalized then true
  else
    match matchMappedV4 normalized with
    | some v4 => isPrivateIPv4 (String.mk v4)
    | none => false

end UrlValidator

/-- C1: for every `ViolationCounts`, `calculateGrade` returns the spec's score
(penalty floored at 0, capped at 55/72/85 by the most severe category present)
and the spec's letter boundaries; in particular any counts with at least one
critical violation score at most 55. -/
theorem grading_calculateGrade_spec (v : Grading.ViolationCounts) :
    Grading.calculateGrade v =
      ⟨Grading.specScore v, Grading.specLetter (Grading.specScore v)⟩ ∧
    (1 ≤ v.critical → (Grading.calculateGrade v).score ≤ 55) := by
  have hscore : (Grading.calculateGrade v).score = Grading.specScore v := by
    simp only [Grading.calculateGrade, Grading.specScore]
    by_cases h1 : v.critical > 0 <;> by_cases h2 : v.serious > 0 <;>
      by_cases h3 : v.moderate ≥ 3 <;> simp [h1, h2, h3]
  have hgrade : (Grading.calculateGrade v).grade =
      Grading.specLetter ((Grading.calculateGrade v).score) := rfl
  have hcap : 1 ≤ v.critical → Grading.specScore v ≤ 55 := by
    intro h
    simp only [Grading.specScore]
    have h1 : v.critical > 0 := h
    simp only [h1, if_pos]
    exact min_le_right _ _
  refine ⟨?_, fun h => hscore ▸ hcap h⟩
  have hmk : Grading.calculateGrade v =
      ⟨(Grading.calculateGrade v).score, (Grading.calculateGrade v).grade⟩ := rfl
  rw [hmk, hgrade, hscore]

/-- Concrete instance of C1: `{critical:1, serious:2}` scores at most 55
(the code yields 51, grade F). -/
theorem grading_calculateGrade_spec_witness :
    (Grading.calculateGrade ⟨1, 2, 0, 0⟩).score ≤ 55 ∧
      Grading.calculateGrade ⟨1, 2, 0, 0⟩ = ⟨51, .F⟩ :=
  ⟨(grading_calculateGrade_spec ⟨1, 2, 0, 0⟩).2 (by decide), by decide⟩

/-- Each `foldl` step of the severity count adds one to exactly the bucket
selected by the impact chain; `total` is untouched by the loop. -/
theorem scanner_tally_foldl (vs : List Scanner.AxeViolationRaw) :
    ∀ c : Scanner.ViolationCounts,
      vs.foldl Scanner.tally c =
        ⟨c.critical + vs.countP Scanner.isCrit,
         c.serious + vs.countP Scanner.isSer,
         c.moderate + vs.countP Scanner.isMod,
         c.minor + vs.countP Scanner.isOther,
         c.total⟩ := by
  induction vs with
  | nil => intro c; simp
  | cons v rest ih =>
    intro c
    rw [List.foldl_cons, ih]
    simp only [List.countP_cons, Scanner.isCrit, Scanner.isSer, Scanner.isMod,
      Scanner.isOther, Scanner.tally]
    split_ifs <;> simp_all [beq_iff_eq, Scanner.ViolationCounts.mk.injEq] <;> omega

/-- C8: every finding whose impact is missing or unrecognized is counted in
the `minor` bucket, each finding increments exactly one bucket, and the four
buckets sum to the findings-list length, which also equals `total`. -/
theorem scanner_severity_counting (vs : List Scanner.AxeViolationRaw) :
    (Scanner.countViolations vs).critical = vs.countP Scanner.isCrit ∧
    (Scanner.countViolations vs).serious = vs.countP Scanner.isSer ∧
    (Scanner.countViolations vs).moderate = vs.countP Scanner.isMod ∧
    (Scanner.countViolations vs).minor = vs.countP Scanner.isOther ∧
    (Scanner.countViolations vs).critical + (Scanner.countViolations vs).serious +
      (Scanner.countViolations vs).moderate + (Scanner.countViolations vs).minor =
      vs.length ∧
    (Scanner.countViolations vs).total = vs.length := by
  have h := scanner_tally_foldl vs ⟨0, 0, 0, 0, vs.length⟩
  have hsum2 : ∀ (l : List Scanner.AxeViolationRaw) (c : Scanner.ViolationCounts),
      (l.foldl Scanner.tally c).critical + (l.foldl Scanner.tally c).serious +
        (l.foldl Scanner.tally c).moderate + (l.foldl Scanner.tally c).minor =
        c.critical + c.serious + c.moderate + c.minor + l.length := by
    intro l
    induction l with
    | nil => intro c; simp
    | cons v rest ih =>
      intro c
      rw [List.foldl_cons, ih (Scanner.tally c v)]
      have hstep : (Scanner.tally c v).critical + (Scanner.tally c v).serious +
          (Scanner.tally c v).moderate + (Scanner.tally c v).minor =
          c.critical + c.serious + c.moderate + c.minor + 1 := by
        unfold Scanner.tally
        split_ifs <;> simp <;> omega
      rw [hstep]
      simp [List.length_cons]
      omega
  unfold Scanner.countViolations
  refine ⟨?_, ?_, ?_, ?_, ?_, ?_⟩
  · rw [h]; simp
  · rw [h]; simp
  · rw [h]; simp
  · rw [h]; simp
  · simpa using hsum2 vs ⟨0, 0, 0, 0, vs.length⟩
  · rw [h]

/-- C5: with capacity 10, eleven successive acquires from a zero counter
succeed ten times, fail on the eleventh and leave the counter at exactly 10;
ten matching releases return it to 0; a stray release on an empty counter
stays at 0, and a release never produces a negative counter. -/
theorem ratelimit_concurrency_slot_spec :
    RateLimit.acquireN 10 0 = (List.replicate 10 true, 10) ∧
    RateLimit.acquireN 11 0 = (List.replicate 10 true ++ [false], 10) ∧
    RateLimit.releaseN 10 10 = 0 ∧
    RateLimit.releaseConcurrencySlot 0 = 0 ∧
    ∀ c : Int, 0 ≤ RateLimit.releaseConcurrencySlot c := by
  refine ⟨by decide, by decide, by decide, by decide, fun c => ?_⟩
  simp only [RateLimit.releaseConcurrencySlot]
  split <;> omega

/-- C9: the body-text sample is the first 2000 characters of the rendered
body, so its length is always under the 5000-character short-body threshold;
consequently a vendor fingerprint anywhere in the sample classifies the page
as blocked regardless of the page's total body length. -/
theorem scanner_body_sample_truncation (o : Scanner.PageObservation)
    (p : Scanner.PageBehavior) :
    (Scanner.bodySample o).length ≤ 2000 ∧
    (Scanner.bodySample o).length < 5000 ∧
    (Scanner.testPatterns Scanner.blockedBodyPatterns (Scanner.bodySample o) = true →
      Scanner.scanAfterNav o p =
        .error (.blocked Scanner.blockedMessage o.pageTitle o.httpStatus)) := by
  have hlen : (Scanner.bodySample o).length ≤ 2000 := by
    have h : (Scanner.bodySample o).length =
        (o.fullInnerText.data.take 2000).length := rfl
    rw [h]
    exact List.length_take_le _ _
  have h5 : (Scanner.bodySample o).length < 5000 := lt_of_le_of_lt hlen (by norm_num)
  refine ⟨hlen, h5, fun hm => ?_⟩
  have hb : Scanner.looksBlocked o.httpStatus o.pageTitle (Scanner.bodySample o) = true := by
    simp [Scanner.looksBlocked, hm, h5]
  simp [Scanner.scanAfterNav, hb]

/-- Concrete instance of C9: a body whose first 2000 characters contain
"captcha" aborts the scan as blocked. -/
theorem scanner_body_sample_truncation_witness :
    Scanner.scanAfterNav ⟨200, "ok", "captcha"⟩ ⟨.ok [], .ok ⟨.ok [], false, .ok []⟩⟩ =
      .error (.blocked Scanner.blockedMessage "ok" 200) :=
  (scanner_body_sample_truncation ⟨200, "ok", "captcha"⟩
    ⟨.ok [], .ok ⟨.ok [], false, .ok []⟩⟩).2.2 (by decide)

/-- C7: the classifier marks the session blocked exactly when the HTTP status
is 403 or 503, the title matches a curated phrase, or the (short) body sample
contains an anti-bot vendor fingerprint; on a positive classification the
scan aborts as a distinct Blocked failure carrying the observed title and
HTTP status, before any rule evaluation runs (the outcome is independent of
the page's rule-engine behaviour, and no findings are returned). -/
theorem scanner_block_classification (o : Scanner.PageObservation)
    (p : Scanner.PageBehavior) :
    ((Scanner.scanAfterNav o p =
        .error (.blocked Scanner.blockedMessage o.pageTitle o.httpStatus)) ↔
      (o.httpStatus = 403 ∨ o.httpStatus = 503 ∨
        Scanner.testPatterns Scanner.blockedTitlePatterns o.pageTitle = true ∨
        (Scanner.testPatterns Scanner.blockedBodyPatterns (Scanner.bodySample o) = true ∧
          (Scanner.bodySample o).length < 5000))) ∧
    (Scanner.looksBlocked o.httpStatus o.pageTitle (Scanner.bodySample o) = true →
      ∀ q : Scanner.PageBehavior, Scanner.scanAfterNav o q = Scanner.scanAfterNav o p) := by
  have hiff : Scanner.looksBlocked o.httpStatus o.pageTitle (Scanner.bodySample o) = true ↔
      (o.httpStatus = 403 ∨ o.httpStatus = 503 ∨
        Scanner.testPatterns Scanner.blockedTitlePatterns o.pageTitle = true ∨
        (Scanner.testPatterns Scanner.blockedBodyPatterns (Scanner.bodySample o) = true ∧
          (Scanner.bodySample o).length < 5000)) := by
    simp [Scanner.looksBlocked, Bool.or_eq_true, Bool.and_eq_true,
      decide_eq_true_eq, beq_iff_eq, and_assoc, or_assoc]
  constructor
  · constructor
    · intro h
      by_cases hb : Scanner.looksBlocked o.httpStatus o.pageTitle (Scanner.bodySample o) = true
      · exact hiff.mp hb
      · exfalso
        revert h
        simp only [Scanner.scanAfterNav, hb, Bool.false_eq_true, if_false]
        rcases hE : Scanner.runEscalation p with m | out <;> simp [hE]
    · intro hs
      have hb := hiff.mpr hs
      simp [Scanner.scanAfterNav, hb]
  · intro hb q
    simp [Scanner.scanAfterNav, hb]

/-- Concrete instance of C7: HTTP 403 with title "Attention Required" yields
the Blocked failure carrying that title and status. -/
theorem scanner_block_classification_witness :
    Scanner.scanAfterNav ⟨403, "Attention Required", ""⟩
        ⟨.ok [], .ok ⟨.ok [], false, .ok []⟩⟩ =
      .error (.blocked Scanner.blockedMessage "Attention Required" 403) :=
  (scanner_block_classification ⟨403, "Attention Required", ""⟩
    ⟨.ok [], .ok ⟨.ok [], false, .ok []⟩⟩).1.mpr (Or.inl rfl)

/-- C4 (amended): escalation is strictly one-directional — the stages run are
always an initial prefix of full → safe → minimal.  A full run that completes
without the rule engine throwing is final (`safeMode = false`, no warning, no
escalation); Safe runs only if Full threw; Minimal runs only if additionally
the in-page safe run threw and a main-content container exists; and the
empty-with-warning outcome (zero findings plus the too-complex warning, and
nothing else ever carries a warning) is produced exactly when the safe run
threw and then either no main-content container was found or the minimal run
itself threw. -/
theorem scanner_escalation_ladder (p : Scanner.PageBehavior) :
    (∀ vs, p.fullRun = .ok vs →
      Scanner.runEscalation p = .ok ⟨vs, false, none⟩ ∧
        Scanner.stagesRun p = [.full]) ∧
    (Scanner.Stage.safe ∈ Scanner.stagesRun p ↔
      ∃ m, p.fullRun = .error m ∧ m ≠ "") ∧
    (Scanner.Stage.minimal ∈ Scanner.stagesRun p ↔
      ((∃ m, p.fullRun = .error m ∧ m ≠ "") ∧
        ∃ st, p.safeEval = .ok st ∧ (∃ e, st.safeRun = .error e) ∧
          st.mainEl = true)) ∧
    ((∃ b vs, Scanner.runEscalation p = .ok ⟨vs, b, some Scanner.tooComplexWarning⟩) ↔
      ((∃ m, p.fullRun = .error m ∧ m ≠ "") ∧
        ∃ st, p.safeEval = .ok st ∧ (∃ e, st.safeRun = .error e) ∧
          (st.mainEl = false ∨ ∃ e, st.minimalRun = .error e))) ∧
    (∀ b vs w, Scanner.runEscalation p = .ok ⟨vs, b, some w⟩ →
      vs = [] ∧ b = true ∧ w = Scanner.tooComplexWarning) ∧
    (∃ n, 1 ≤ n ∧
      Scanner.stagesRun p = [Scanner.Stage.full, .safe, .minimal].take n) := by
  obtain ⟨fr, se⟩ := p
  rcases fr with m | vs
  · by_cases hm : m = ""
    · subst hm
      refine ⟨?_, ?_, ?_, ?_, ?_, ⟨1, by omega, ?_⟩⟩ <;>
        simp [Scanner.runEscalation, Scanner.stagesRun, Scanner.fullScanResult,
          Scanner.errTruthy]
    · rcases se with msg | st
      · refine ⟨?_, ?_, ?_, ?_, ?_, ⟨2, by omega, ?_⟩⟩ <;>
          by_cases hmsg : msg = "" <;>
          simp [Scanner.runEscalation, Scanner.stagesRun, Scanner.fullScanResult,
            Scanner.safeScanResult, Scanner.errTruthy, hm, hmsg]
      · obtain ⟨sr, me, mr⟩ := st
        rcases sr with e | svs
        · cases me
          · rcases mr with e2 | mvs
            · refine ⟨?_, ?_, ?_, ?_, ?_, ⟨2, by omega, ?_⟩⟩ <;>
                simp [Scanner.runEscalation, Scanner.stagesRun,
                  Scanner.fullScanResult, Scanner.safeScanResult,
                  Scanner.errTruthy, hm]
            · refine ⟨?_, ?_, ?_, ?_, ?_, ⟨2, by omega, ?_⟩⟩ <;>
                simp [Scanner.runEscalation, Scanner.stagesRun,
                  Scanner.fullScanResult, Scanner.safeScanResult,
                  Scanner.errTruthy, hm]
          · rcases mr with e2 | mvs
            · refine ⟨?_, ?_, ?_, ?_, ?_, ⟨3, by omega, ?_⟩⟩ <;>
                simp [Scanner.runEscalation, Scanner.stagesRun,
                  Scanner.fullScanResult, Scanner.safeScanResult,
                  Scanner.errTruthy, hm]
            · refine ⟨?_, ?_, ?_, ?_, ?_, ⟨3, by omega, ?_⟩⟩ <;>
                simp [Scanner.runEscalation, Scanner.stagesRun,
                  Scanner.fullScanResult, Scanner.safeScanResult,
                  Scanner.errTruthy, hm]
        · refine ⟨?_, ?_, ?_, ?_, ?_, ⟨2, by omega, ?_⟩⟩ <;>
            simp [Scanner.runEscalation, Scanner.stagesRun,
              Scanner.fullScanResult, Scanner.safeScanResult,
              Scanner.errTruthy, hm]
  · refine ⟨?_, ?_, ?_, ?_, ?_, ⟨1, by omega, ?_⟩⟩ <;>
      simp [Scanner.runEscalation, Scanner.stagesRun, Scanner.fullScanResult,
        Scanner.errTruthy]

/-- Concrete instance of C4's amended ladder: on a page with no main-content
container it reports the too-complex warning. -/
theorem scanner_escalation_ladder_witness :
    Scanner.runEscalation Scanner.noMainElPage =
      .ok ⟨[], true, some Scanner.tooComplexWarning⟩ :=
  ((scanner_escalation_ladder Scanner.noMainElPage).2.2.2.1.mpr
    ⟨⟨"boom", rfl, by decide⟩, ⟨.error "crash", false, .ok []⟩, rfl,
      ⟨"crash", rfl⟩, Or.inl rfl⟩).elim
    (fun b h => h.elim (fun vs hv => by
      have := (scanner_escalation_ladder Scanner.noMainElPage).2.2.2.2.1 b vs
        Scanner.tooComplexWarning hv
      rw [hv, this.1, this.2.1]))

/-- Counterexample to C4 as stated: when the safe run throws and the page has
no main-content container, the empty-with-warning outcome is produced even
though the Minimal run never threw (it was never attempted). -/
theorem scanner_escalation_empty_without_minimal_throw :
    Scanner.runEscalation Scanner.noMainElPage =
      .ok ⟨[], true, some Scanner.tooComplexWarning⟩ ∧
    Scanner.noMainElPage.safeEval = .ok ⟨.error "crash", false, .ok []⟩ ∧
    Scanner.Stage.minimal ∉ Scanner.stagesRun Scanner.noMainElPage := by
  refine ⟨rfl, rfl, ?_⟩
  decide

/-- C6 (amended): in locked-down mode every IPv4-mapped IPv6 address
`::ffff:…` is classified private/reserved regardless of the embedded IPv4
address — the `"::"` entry of the prefix list matches the mapped form before
the unwrap-and-recheck branch can run, so a mapped public IPv4 address is
also rejected (the repository's own test suite pins this conservative
behaviour). -/
theorem urlvalidator_mapped_ipv6_always_private (rest : String) :
    UrlValidator.isPrivateIPv6 ("::ffff:" ++ rest) = true := by
  have hdata : ("::ffff:" ++ rest).data.map Char.toLower =
      ':' :: ':' :: ('f' :: 'f' :: 'f' :: 'f' :: ':' :: rest.data.map Char.toLower) := by
    rw [String.data_append]
    simp [List.map_append]
  simp only [UrlValidator.isPrivateIPv6, hdata]
  by_cases h1 :
      (':' :: ':' :: ('f' :: 'f' :: 'f' :: 'f' :: ':' :: rest.data.map Char.toLower)) =
        [':', ':'] ∨
      (':' :: ':' :: ('f' :: 'f' :: 'f' :: 'f' :: ':' :: rest.data.map Char.toLower)) =
        [':', ':', '0']
  · rcases h1 with h1 | h1 <;> simp [h1]
  · push_neg at h1
    have hany : UrlValidator.PRIVATE_IPV6_PREFIXES.any
        (fun p => Scanner.isPre p.data
          (':' :: ':' :: ('f' :: 'f' :: 'f' :: 'f' :: ':' ::
            rest.data.map Char.toLower))) = true := by
      simp only [UrlValidator.PRIVATE_IPV6_PREFIXES, List.any_cons, List.any_nil]
      have hlast : Scanner.isPre ("::" : String).data
          (':' :: ':' :: ('f' :: 'f' :: 'f' :: 'f' :: ':' ::
            rest.data.map Char.toLower)) = true := by
        simp [Scanner.isPre]
      simp [hlast]
    simp [h1.1, h1.2, hany]

/-- Counterexample to C6 as stated: the mapped form of the public address
8.8.8.8 is classified private by `isPrivateIPv6`, although `isPrivateIPv4`
classifies 8.8.8.8 itself as public. -/
theorem urlvalidator_mapped_public_ipv4_rejected :
    UrlValidator.isPrivateIPv6 "::ffff:8.8.8.8" = true ∧
    UrlValidator.isPrivateIPv4 "8.8.8.8" = false := by
  constructor <;> decide

/-- Trimming is reflexive on one violation. -/
theorem scanner_nodesTrim_refl (v : Scanner.AxeViolationRaw) : Scanner.NodesTrim v v :=
  ⟨rfl, rfl, v.nodes.length + 1, by omega, (List.take_of_length_le (by omega)).symm⟩

/-- Trimming is reflexive. -/
theorem scanner_trim_refl (vs : List Scanner.AxeViolationRaw) : Scanner.Trim vs vs := by
  induction vs with
  | nil => exact List.Forall₂.nil
  | cons v rest ih => exact List.Forall₂.cons (scanner_nodesTrim_refl v) ih

/-- Trimming composes on one violation (prefixes of prefixes). -/
theorem scanner_nodesTrim_trans {u v w : Scanner.AxeViolationRaw}
    (h1 : Scanner.NodesTrim u v) (h2 : Scanner.NodesTrim v w) :
    Scanner.NodesTrim u w := by
  obtain ⟨hid1, him1, k1, hk1, hn1⟩ := h1
  obtain ⟨hid2, him2, k2, hk2, hn2⟩ := h2
  refine ⟨hid2.trans hid1, him2.trans him1, min k2 k1, by omega, ?_⟩
  rw [hn2, hn1, List.take_take]

/-- Trimming composes. -/
theorem scanner_trim_trans {us vs ws : List Scanner.AxeViolationRaw}
    (h1 : Scanner.Trim us vs) (h2 : Scanner.Trim vs ws) : Scanner.Trim us ws := by
  induction h1 generalizing ws with
  | nil => cases h2; exact .nil
  | cons hx _ ih =>
    cases h2 with
    | cons hy hrest2 => exact .cons (scanner_nodesTrim_trans hx hy) (ih hrest2)

/-- A halving step trims one violation. -/
theorem scanner_halveNodes_trim (v : Scanner.AxeViolationRaw) :
    Scanner.NodesTrim v (Scanner.halveNodes v) :=
  ⟨rfl, rfl, max 1 (v.nodes.length / 2), le_max_left _ _, rfl⟩

/-- `halveAt` trims the list. -/
theorem scanner_halveAt_trim (vs : List Scanner.AxeViolationRaw) :
    ∀ i : Nat, Scanner.Trim vs (Scanner.halveAt vs i) := by
  induction vs with
  | nil => intro i; exact .nil
  | cons v rest ih =>
    intro i
    cases i with
    | zero => exact .cons (scanner_halveNodes_trim v) (scanner_trim_refl rest)
    | succ j => exact .cons (scanner_nodesTrim_refl v) (ih j)

/-- The halving loop trims the list. -/
theorem scanner_trimLoop_trim (fuel : Nat) :
    ∀ vs : List Scanner.AxeViolationRaw, Scanner.Trim vs (Scanner.trimLoop fuel vs) := by
  induction fuel with
  | zero => intro vs; exact scanner_trim_refl vs
  | succ n ih =>
    intro vs
    simp only [Scanner.trimLoop]
    split
    · exact scanner_trim_refl vs
    · split
      · exact scanner_trim_refl vs
      · rename_i i _
        exact scanner_trim_trans (scanner_halveAt_trim vs i) (ih (Scanner.halveAt vs i))

/-- The list whose serialization `truncateViolations` returns is a trimmed
form of the input. -/
theorem scanner_truncationList_trim (vs : List Scanner.AxeViolationRaw) :
    Scanner.Trim vs (Scanner.truncationList vs) := by
  unfold Scanner.truncationList
  split
  · exact scanner_trim_refl vs
  · exact scanner_trimLoop_trim 50 vs

/-- The string `truncateViolations` returns is the serialization of
`truncationList`. -/
theorem scanner_truncate_fst (vs : List Scanner.AxeViolationRaw) :
    (Scanner.truncateViolations vs).1 =
      Scanner.serializeViolations (Scanner.truncationList vs) := by
  simp only [Scanner.truncateViolations, Scanner.truncationList]
  split <;> rfl

/-- C3: `truncateViolations` never drops a Finding — the returned string is
the serialization of a list with exactly the same findings (same ids and
impacts, in the same order), and every finding whose occurrence list started
non-empty retains at least one occurrence.  The source operates on a deep
copy (`JSON.parse(JSON.stringify(violations))`), which on this data is the
identity, so the caller's argument is untouched — the embedding is the pure
function of that copy. -/
theorem scanner_truncate_preserves_findings (vs : List Scanner.AxeViolationRaw) :
    (Scanner.truncateViolations vs).1 =
      Scanner.serializeViolations (Scanner.truncationList vs) ∧
    (Scanner.truncationList vs).length = vs.length ∧
    List.Forall₂
      (fun v w => w.id = v.id ∧ w.impact = v.impact ∧
        (v.nodes ≠ [] → w.nodes ≠ []))
      vs (Scanner.truncationList vs) := by
  refine ⟨scanner_truncate_fst vs, ?_, ?_⟩
  · exact (scanner_truncationList_trim vs).length_eq.symm
  · refine (scanner_truncationList_trim vs).imp ?_
    intro v w h
    obtain ⟨hid, him, k, hk, hn⟩ := h
    refine ⟨hid, him, fun hne => ?_⟩
    rw [hn, Ne, List.take_eq_nil_iff]
    push_neg
    exact ⟨by omega, hne⟩

/-- Concrete instance of C3 on a one-finding list. -/
theorem scanner_truncate_preserves_findings_witness :
    (Scanner.truncateViolations [⟨"v", some "minor", [⟨"x"⟩]⟩]).1 =
      Scanner.serializeViolations
        (Scanner.truncationList [⟨"v", some "minor", [⟨"x"⟩]⟩]) :=
  (scanner_truncate_preserves_findings [⟨"v", some "minor", [⟨"x"⟩]⟩]).1

/-- C10: a halving step keeps the first `floor(n/2)` occurrences (a slice
from index 0), and overall every finding's retained occurrences are an
initial segment (`take k`) of its original ordered occurrence list — order
is preserved and the earliest occurrences survive. -/
theorem scanner_truncate_keeps_initial_segment (vs : List Scanner.AxeViolationRaw) :
    (∀ v : Scanner.AxeViolationRaw, 2 ≤ v.nodes.length →
      (Scanner.halveNodes v).nodes = v.nodes.take (v.nodes.length / 2)) ∧
    List.Forall₂ (fun v w => ∃ k, w.nodes = v.nodes.take k) vs
      (Scanner.truncationList vs) := by
  constructor
  · intro v h
    unfold Scanner.halveNodes
    have hm : max 1 (v.nodes.length / 2) = v.nodes.length / 2 := by omega
    rw [hm]
  · exact (scanner_truncationList_trim vs).imp fun _ _ h => by
      obtain ⟨_, _, k, _, hn⟩ := h
      exact ⟨k, hn⟩

/-- Concrete instance of C10: halving a two-occurrence finding keeps exactly
the first occurrence. -/
theorem scanner_truncate_keeps_initial_segment_witness :
    (Scanner.halveNodes ⟨"v", none, [⟨"a"⟩, ⟨"b"⟩]⟩).nodes =
      ([⟨"a"⟩, ⟨"b"⟩] : List Scanner.AxeNodeRaw).take 1 :=
  (scanner_truncate_keeps_initial_segment []).1 ⟨"v", none, [⟨"a"⟩, ⟨"b"⟩]⟩
    (by decide)

/-- Length of a comma-join: the summed lengths plus one separator between
each pair of neighbours. -/
theorem scanner_commaJoin_length (l : List String) :
    (Scanner.commaJoinS l).length = (l.map String.length).sum + (l.length - 1) := by
  induction l with
  | nil => simp [Scanner.commaJoinS]
  | cons s rest ih =>
    cases rest with
    | nil => simp [Scanner.commaJoinS]
    | cons t ts =>
      have hcomma : ("," : String).length = 1 := rfl
      simp only [Scanner.commaJoinS, String.length_append, List.map_cons,
        List.sum_cons, List.length_cons] at *
      rw [ih, hcomma]
      omega

/-- Pointwise-bounded lists have bounded sums. -/
theorem scanner_sum_le_forall2 {xs ys : List Nat}
    (h : List.Forall₂ (fun a b => a ≤ b) xs ys) : xs.sum ≤ ys.sum := by
  induction h with
  | nil => simp
  | cons h1 _ ih => simp only [List.sum_cons]; omega

/-- Serializing a node-list prefix is no longer than serializing the whole
node list. -/
theorem scanner_serializeNodes_take_len (ns : List Scanner.AxeNodeRaw) (k : Nat) :
    (Scanner.serializeNodes (ns.take k)).length ≤
      (Scanner.serializeNodes ns).length := by
  unfold Scanner.serializeNodes
  rw [scanner_commaJoin_length, scanner_commaJoin_length,
    List.map_take Scanner.serializeNode ns k,
    List.map_take String.length (ns.map Scanner.serializeNode) k]
  have h1 : (((ns.map Scanner.serializeNode).map String.length).take k).sum ≤
      ((ns.map Scanner.serializeNode).map String.length).sum :=
    List.Sublist.sum_le_sum (List.take_sublist _ _) (by simp)
  have h2 : (((ns.map Scanner.serializeNode)).take k).length ≤
      (ns.map Scanner.serializeNode).length := by
    rw [List.length_take]; omega
  omega

/-- Trimming one violation can only shorten its serialization. -/
theorem scanner_serializeViolation_mono {v w : Scanner.AxeViolationRaw}
    (h : Scanner.NodesTrim v w) :
    (Scanner.serializeViolation w).length ≤ (Scanner.serializeViolation v).length := by
  obtain ⟨hid, him, k, _, hn⟩ := h
  unfold Scanner.serializeViolation
  rw [hid, him, hn]
  simp only [String.length_append]
  have := scanner_serializeNodes_take_len v.nodes k
  omega

/-- Trimming a violation list can only shorten its serialization. -/
theorem scanner_serializeViolations_mono {vs ws : List Scanner.AxeViolationRaw}
    (h : Scanner.Trim vs ws) :
    (Scanner.serializeViolations ws).length ≤
      (Scanner.serializeViolations vs).length := by
  unfold Scanner.serializeViolations
  simp only [String.length_append]
  rw [scanner_commaJoin_length, scanner_commaJoin_length]
  have hf2 : List.Forall₂ (fun a b => a ≤ b)
      ((ws.map Scanner.serializeViolation).map String.length)
      ((vs.map Scanner.serializeViolation).map String.length) := by
    induction h with
    | nil => exact .nil
    | cons h1 _ ih =>
      simp only [List.map_cons]
      exact .cons (scanner_serializeViolation_mono h1) ih
  have hlen : ws.length = vs.length := h.length_eq.symm
  have hsum := scanner_sum_le_forall2 hf2
  simp only [List.length_map]
  omega

/-- C2 (amended): when the input's serialization is already within the
512 000-character budget (not 500 000 as stated) it is returned unchanged
with `truncated = false`; otherwise the returned string is the serialization
of the trimmed copy, which never exceeds the input's own serialized length —
but, as the counterexample shows, it can still exceed the budget once every
finding is down to one occurrence. -/
theorem scanner_truncate_budget (vs : List Scanner.AxeViolationRaw) :
    ((Scanner.serializeViolations vs).length ≤ Scanner.MAX_RAW_VIOLATIONS_CHARS →
      Scanner.truncateViolations vs = (Scanner.serializeViolations vs, false)) ∧
    (Scanner.truncateViolations vs).1.length ≤
      (Scanner.serializeViolations vs).length := by
  constructor
  · intro h
    simp [Scanner.truncateViolations, h]
  · rw [scanner_truncate_fst]
    exact scanner_serializeViolations_mono (scanner_truncationList_trim vs)

/-- Concrete instance of C2's amended budget contract: an empty findings list
fits and is returned unchanged. -/
theorem scanner_truncate_budget_witness :
    Scanner.truncateViolations [] = (Scanner.serializeViolations [], false) :=
  (scanner_truncate_budget []).1 (by decide)

/-- Escaping a run of `'a'`s is the identity on that run. -/
theorem scanner_escList_replicate (n : Nat) :
    Scanner.escList (List.replicate n 'a') = List.replicate n 'a' := by
  induction n with
  | zero => rfl
  | succ m ih =>
    rw [List.replicate_succ]
    show Scanner.escChar 'a' ++ Scanner.escList (List.replicate m 'a') =
      'a' :: List.replicate m 'a'
    rw [ih]
    rfl

/-- The JSON string literal for the 600 000-character payload is 600 002
characters long. -/
theorem scanner_bigHtml_quote_len : (Scanner.quote Scanner.bigHtml).length = 600002 := by
  unfold Scanner.quote
  rw [String.length_append, String.length_append]
  have h2 : (String.mk (Scanner.escList Scanner.bigHtml.data)).length = 600000 := by
    have h1 : Scanner.bigHtml.data = List.replicate 600000 'a' := rfl
    rw [h1, scanner_escList_replicate]
    show (List.replicate 600000 'a').length = 600000
    rw [List.length_replicate]
  rw [h2]
  have hq : ("\"" : String).length = 1 := rfl
  rw [hq]

/-- The serialization of the one-violation, one-huge-node list is 600 034
characters long. -/
theorem scanner_big_serialize_len :
    (Scanner.serializeViolations [Scanner.bigViolation]).length = 600034 := by
  have hnode : (Scanner.serializeNode ⟨Scanner.bigHtml⟩).length = 600011 := by
    unfold Scanner.serializeNode
    rw [String.length_append, String.length_append]
    rw [show (⟨Scanner.bigHtml⟩ : Scanner.AxeNodeRaw).html = Scanner.bigHtml from rfl,
      scanner_bigHtml_quote_len]
    decide
  have hviol : (Scanner.serializeViolation Scanner.bigViolation).length = 600032 := by
    unfold Scanner.serializeViolation Scanner.bigViolation
    dsimp only
    rw [String.length_append, String.length_append, String.length_append,
      String.length_append]
    rw [show Scanner.serializeNodes [⟨Scanner.bigHtml⟩] =
      Scanner.serializeNode ⟨Scanner.bigHtml⟩ from rfl]
    rw [hnode]
    decide
  unfold Scanner.serializeViolations
  rw [show ([Scanner.bigViolation].map Scanner.serializeViolation) =
    [Scanner.serializeViolation Scanner.bigViolation] from rfl]
  rw [show Scanner.commaJoinS [Scanner.serializeViolation Scanner.bigViolation] =
    Scanner.serializeViolation Scanner.bigViolation from rfl]
  rw [String.length_append, String.length_append, hviol]
  decide

/-- Counterexample to C2 as stated: a single finding with one 600 000-character
occurrence cannot be halved (`nodes.length = 1`), so `truncateViolations`
returns a 600 034-character string — above the claimed 500 000-character
budget (and above the actual 512 000-character cap) — flagged `truncated`. -/
theorem scanner_truncate_exceeds_budget :
    500000 < ((Scanner.truncateViolations [Scanner.bigViolation]).1).length ∧
    (Scanner.truncateViolations [Scanner.bigViolation]).2 = true := by
  have hlen := scanner_big_serialize_len
  have hnotle : ¬((Scanner.serializeViolations [Scanner.bigViolation]).length ≤
      Scanner.MAX_RAW_VIOLATIONS_CHARS) := by
    rw [hlen]; decide
  have hidx : Scanner.findMaxIdx [Scanner.bigViolation] = none := rfl
  have hloop : Scanner.trimLoop 50 [Scanner.bigViolation] = [Scanner.bigViolation] := by
    show Scanner.trimLoop (49 + 1) [Scanner.bigViolation] = [Scanner.bigViolation]
    simp only [Scanner.trimLoop, hidx, hnotle, if_false]
  have hres : Scanner.truncateViolations [Scanner.bigViolation] =
      (Scanner.serializeViolations [Scanner.bigViolation], true) := by
    simp only [Scanner.truncateViolations, hnotle, if_false, hloop]
  rw [hres]
  exact ⟨by rw [hlen]; decide, rfl⟩
